import Mathlib

/-!
Verification development for the shelld persistent-shell service.

The shell session engine (internal/shell/shell.go) is embedded shallowly:
terminal byte streams are lists of characters, the engine's mutable record
is a structure, and each operation of the engine or of the HTTP controller
(cmd/shelld/main.go) is a Lean function on that structure.  Theorems at the
end of the file settle the specification claims against these definitions.
-/

namespace Shelld

/-- The carriage-return/line-feed pair a pseudo-terminal appends to lines. -/
def crlf : List Char := ['\r', '\n']

/-- Index of the first occurrence of `pat` inside `s`
(Go `strings.Index`), `none` when `pat` does not occur. -/
def strIndex (pat : List Char) : List Char → Option Nat
  | [] => if pat.isPrefixOf [] then some 0 else none
  | c :: rest =>
      if pat.isPrefixOf (c :: rest) then some 0
      else (strIndex pat rest).map (fun n => n + 1)

/-- Whether `pat` occurs somewhere inside `s` (Go `bytes.Contains`). -/
def containsSub (pat s : List Char) : Bool := (strIndex pat s).isSome

/-- Split on the newline character, keeping empty pieces
(Go `strings.Split( s, "\n" )`). -/
def splitNl : List Char → List (List Char)
  | [] => [[]]
  | c :: rest =>
      if c = '\n' then [] :: splitNl rest
      else
        match splitNl rest with
        | [] => [[c]]
        | l :: ls => (c :: l) :: ls

/-- Strip one trailing carriage return (Go `strings.TrimSuffix( line, "\r" )`). -/
def trimCR (l : List Char) : List Char :=
  match l.reverse with
  | '\r' :: r => r.reverse
  | _ => l

/-- `extractOutput` of shell.go: everything after the first occurrence of
`startMarker ++ "\r\n"`, cut before the next occurrence of `endMarker`,
split on newlines, each line stripped of a trailing carriage return,
empty lines dropped, rejoined with newlines; empty when a marker is missing. -/
def extractOutput (buffer startMarker endMarker : List Char) : List Char :=
  let startPat := startMarker ++ crlf
  match strIndex startPat buffer with
  | none => []
  | some startIdx =>
      let rest := buffer.drop (startIdx + startPat.length)
      match strIndex endMarker rest with
      | none => []
      | some endIdx =>
          let segment := rest.take endIdx
          List.intercalate ['\n']
            (((splitNl segment).map trimCR).filter (fun l => l ≠ []))

/-- An occurrence of `pat` inside `s` at position `i`. -/
def occursAt (pat s : List Char) (i : Nat) : Prop :=
  pat.isPrefixOf (s.drop i) = true

instance occursAtDecidable (pat s : List Char) (i : Nat) :
    Decidable (occursAt pat s i) :=
  inferInstanceAs (Decidable (pat.isPrefixOf (s.drop i) = true))

theorem strIndex_none_iff (pat s : List Char) :
    strIndex pat s = none ↔ ∀ i, ¬ occursAt pat s i := by
  induction s with
  | nil =>
      constructor
      · intro h i
        intro hocc
        rw [occursAt, List.drop_nil] at hocc
        rw [strIndex, if_pos hocc] at h
        exact Option.noConfusion h
      · intro h
        rw [strIndex, if_neg ?_]
        have h0 := h 0
        rw [occursAt, List.drop_nil] at h0
        exact h0
  | cons c rest ih =>
      constructor
      · intro h i
        by_cases hp : pat.isPrefixOf (c :: rest) = true
        · rw [strIndex, if_pos hp] at h
          exact Option.noConfusion h
        · rw [strIndex, if_neg hp] at h
          have hrest : strIndex pat rest = none := by
            cases hx : strIndex pat rest with
            | none => rfl
            | some n => rw [hx] at h; exact Option.noConfusion h
          cases i with
          | zero => exact fun hocc => hp hocc
          | succ n =>
              intro hocc
              rw [occursAt, List.drop_succ_cons] at hocc
              exact (ih.mp hrest) n hocc
      · intro h
        have h0 : ¬ pat.isPrefixOf (c :: rest) = true := h 0
        rw [strIndex, if_neg h0]
        have hrest : strIndex pat rest = none :=
          ih.mpr (fun n hocc => h (n + 1) (by rwa [occursAt, List.drop_succ_cons]))
        rw [hrest]
        rfl

theorem strIndex_some (pat s : List Char) (i : Nat)
    (h : strIndex pat s = some i) :
    occursAt pat s i ∧ ∀ j, j < i → ¬ occursAt pat s j := by
  induction s generalizing i with
  | nil =>
      by_cases hp : pat.isPrefixOf [] = true
      · rw [strIndex, if_pos hp, Option.some.injEq] at h
        subst h
        exact ⟨hp, fun j hj => absurd hj (Nat.not_lt_zero j)⟩
      · rw [strIndex, if_neg hp] at h
        exact Option.noConfusion h
  | cons c rest ih =>
      by_cases hp : pat.isPrefixOf (c :: rest) = true
      · rw [strIndex, if_pos hp, Option.some.injEq] at h
        subst h
        exact ⟨hp, fun j hj => absurd hj (Nat.not_lt_zero j)⟩
      · rw [strIndex, if_neg hp] at h
        cases hx : strIndex pat rest with
        | none => rw [hx] at h; exact Option.noConfusion h
        | some n =>
            rw [hx] at h
            have hni : n + 1 = i := by simpa using h
            obtain ⟨hocc, hmin⟩ := ih n hx
            subst hni
            refine ⟨by rwa [occursAt, List.drop_succ_cons], ?_⟩
            intro j hj
            cases j with
            | zero => exact fun hocc0 => hp hocc0
            | succ m =>
                intro hoccm
                rw [occursAt, List.drop_succ_cons] at hoccm
                exact hmin m (Nat.lt_of_succ_lt_succ hj) hoccm

theorem strIndex_eq_some_of_first (pat s : List Char) (i : Nat)
    (hocc : occursAt pat s i) (hmin : ∀ j, j < i → ¬ occursAt pat s j) :
    strIndex pat s = some i := by
  cases h : strIndex pat s with
  | none => exact absurd hocc ((strIndex_none_iff pat s).mp h i)
  | some k =>
      obtain ⟨hk, hkmin⟩ := strIndex_some pat s k h
      rcases Nat.lt_trichotomy k i with hlt | heq | hgt
      · exact absurd hk (hmin k hlt)
      · rw [heq]
      · exact absurd hocc (hkmin i hgt)

/-! ### Command wrapping: markers and the base64-encoded write (shell.go Execute) -/

/-- The alphabet of standard base64 (Go `encoding/base64.StdEncoding`). -/
def base64Alphabet : List Char :=
  "ABCDEFGHIJKLMNOPQRSTUVWXYZabcdefghijklmnopqrstuvwxyz0123456789+/".data

def b64Char (n : Nat) : Char := base64Alphabet.getD n 'A'

/-- Standard base64 of a byte sequence, with `=` padding
(Go `base64.StdEncoding.EncodeToString`). -/
def base64Encode : List Nat → List Char
  | [] => []
  | [a] => [b64Char (a / 4), b64Char (a % 4 * 16), '=', '=']
  | [a, b] => [b64Char (a / 4), b64Char (a % 4 * 16 + b / 16), b64Char (b % 16 * 4), '=']
  | a :: b :: c :: rest =>
      b64Char (a / 4) :: b64Char (a % 4 * 16 + b / 16) ::
      b64Char (b % 16 * 4 + c / 64) :: b64Char (c % 64) :: base64Encode rest

/-- The start marker generated for marker id `markerID`
(`"<<<SHELLD_START_%d>>>"` in shell.go). -/
def startMarkerOf (markerID : Nat) : List Char :=
  "<<<SHELLD_START_".data ++ (toString markerID).data ++ ">>>".data

/-- The end marker generated for marker id `markerID`
(`"<<<SHELLD_END_%d>>>"` in shell.go). -/
def endMarkerOf (markerID : Nat) : List Char :=
  "<<<SHELLD_END_".data ++ (toString markerID).data ++ ">>>".data

/-- The single wrapped line Execute writes to the pseudo-terminal master
(shell.go line 148). -/
def wrappedCmd (startMarker endMarker : List Char) (command : List Nat) : List Char :=
  "echo '".data ++ startMarker ++ "';eval \"$(echo '".data ++ base64Encode command
    ++ "'|base64 -d)\";echo;echo '".data ++ endMarker ++ "'\n".data

theorem take_append_of_le {α : Type} :
    ∀ (n : Nat) (l₁ l₂ : List α), n ≤ l₁.length → (l₁ ++ l₂).take n = l₁.take n := by
  intro n l₁
  induction l₁ generalizing n with
  | nil =>
      intro l₂ h
      have : n = 0 := Nat.le_zero.mp h
      subst this
      rfl
  | cons a t ih =>
      intro l₂ h
      cases n with
      | zero => rfl
      | succ m =>
          simp only [List.cons_append, List.take_succ_cons]
          rw [ih m l₂ (Nat.le_of_succ_le_succ h)]

/-- The two markers of one Execute call are distinct strings. -/
theorem startMarker_ne_endMarker (markerID : Nat) :
    startMarkerOf markerID ≠ endMarkerOf markerID := by
  intro h
  have h13 := congrArg (List.take 13) h
  rw [startMarkerOf, endMarkerOf, List.append_assoc, List.append_assoc] at h13
  rw [take_append_of_le 13 _ _ (by decide), take_append_of_le 13 _ _ (by decide)] at h13
  exact absurd h13 (by decide)

/-! ### The session engine state machine (shell.go) -/

/-- The four shell states. -/
inductive SState where
  | available
  | locked
  | executing
  | unrecoverable
deriving DecidableEq, Repr

/-- Errors the engine surfaces.  `timeoutErr` models the distinguished
`ErrTimeout`; the others model the reader's and writer's failures. -/
inductive ShellErr where
  | timeoutErr
  | eofErr
  | readErr
  | writeErr
  | closedErr
deriving DecidableEq, Repr

/-- Result of an Execute call. -/
inductive ExecResult where
  | ok (output : List Char)
  | failed (e : ShellErr)
deriving DecidableEq, Repr

/-- The engine's mutable record (struct Shell): state, accumulated output
buffer, last completed output, current command, the two markers, the
single-slot completion channel (`none` while empty), whether the Execute
caller is still waiting in its select, and whether a child process handle
is held. -/
structure Sys where
  state : SState
  buffer : List Char
  lastOutput : List Char
  currentCommand : List Nat
  startM : List Char
  endM : List Char
  doneCh : Option (Option ShellErr)
  waiting : Bool
  hasProc : Bool
deriving DecidableEq, Repr

/-- The end-marker sequence the reader looks for as output:
`"\n" + endMarker + "\r\n"` (shell.go line 263). -/
def endMarkerOutput (s : Sys) : List Char := '\n' :: (s.endM ++ crlf)

/-- Successful Start (shell.go Start): spawn, handshake, clear the buffer,
move to `locked`. -/
def startShell (s : Sys) : Sys :=
  { s with state := SState.locked, buffer := [], hasProc := true }

/-- Failed Start (spawn failure or handshake timeout): `unrecoverable`. -/
def startShellFail (s : Sys) : Sys :=
  { s with state := SState.unrecoverable }

/-- The beginning of Execute (shell.go lines 125-160): move to `executing`,
reset the buffer and the last-output slot, record the command and fresh
markers, arm an empty completion channel, and write the wrapped command;
the returned characters are that single write. -/
def execBegin (s : Sys) (command : List Nat) (markerID : Nat) : Sys × List Char :=
  ({ s with
      state := SState.executing
      buffer := []
      lastOutput := []
      currentCommand := command
      startM := startMarkerOf markerID
      endM := endMarkerOf markerID
      doneCh := none
      waiting := true },
   wrappedCmd (startMarkerOf markerID) (endMarkerOf markerID) command)

/-- Execute when the write to the pseudo-terminal fails: `unrecoverable`. -/
def execWriteFail (s : Sys) (command : List Nat) (markerID : Nat) : Sys :=
  { (execBegin s command markerID).1 with
      state := SState.unrecoverable, waiting := false }

/-- One pass of the reader loop (shell.go readUntilMarker): append the chunk
read from the pseudo-terminal; when the buffer now contains
`"\n" + endMarker + "\r\n"`, extract the output into the last-output slot,
move to `locked` and signal success on the completion channel. -/
def readerChunk (s : Sys) (chunk : List Char) : Sys :=
  let buf := s.buffer ++ chunk
  if containsSub (endMarkerOutput s) buf then
    { s with
        buffer := buf
        lastOutput := extractOutput buf s.startM s.endM
        state := SState.locked
        doneCh := some none }
  else { s with buffer := buf }

/-- The reader signalling a read failure on the completion channel
(shell.go lines 276-283); the reader itself changes no state. -/
def readerSignalErr (s : Sys) (e : ShellErr) : Sys :=
  { s with doneCh := some (some e) }

/-- Execute receiving success from the completion channel
(shell.go lines 164-175). -/
def execRecvOk (s : Sys) : Sys × ExecResult :=
  ({ s with state := SState.locked, doneCh := none, waiting := false },
   ExecResult.ok s.lastOutput)

/-- Execute receiving an error from the completion channel
(shell.go lines 168-170): `unrecoverable`, error surfaced. -/
def execRecvErr (s : Sys) (e : ShellErr) : Sys × ExecResult :=
  ({ s with state := SState.unrecoverable, doneCh := none, waiting := false },
   ExecResult.failed e)

/-- Execute's per-call deadline firing (shell.go lines 177-179): the call
returns the distinguished timeout error; nothing else changes and the
reader keeps running. -/
def execTimeout (s : Sys) : Sys × ExecResult :=
  ({ s with waiting := false }, ExecResult.failed ShellErr.timeoutErr)

/-- The Output operation (shell.go Output): the last completed output. -/
def outputOp (s : Sys) : List Char := s.lastOutput

/-- The Unlock operation (shell.go Unlock): with a process, terminate it,
reset the buffer and return to `available`; without one, only the state
is set to `available`. -/
def unlockShell (s : Sys) : Sys :=
  if s.hasProc then
    { s with state := SState.available, buffer := [], hasProc := false }
  else
    { s with state := SState.available }

/-- The combined effect of a failing pseudo-terminal read (reader lines
276-283 plus, when the Execute caller is still in its select, the receive
at lines 168-170): the surfaced error is returned alongside the new state. -/
def readerFail (s : Sys) (e : ShellErr) : Sys × Option ShellErr :=
  if s.waiting then
    ((execRecvErr (readerSignalErr s e) e).1, some e)
  else
    (readerSignalErr s e, none)

/-! ### One step of the engine (all operations), for the state graph -/

/-- One atomic transition of the engine, taken by Start, Execute, the
reader, Kill or Unlock.  The reader steps fire whenever a reader is active
and its completion channel is still empty — the reader keeps running after
an Execute timeout and does not recheck the state.  `execRecvOk` and
`execRecvErr` fire exactly when the Execute caller is in its select and the
channel holds the corresponding value; like shell.go lines 164-175 they
assign the new state unconditionally, whatever the state has meanwhile
become. -/
inductive Step : Sys → Sys → Prop where
  | startOk (s : Sys) : s.state = SState.available → Step s (startShell s)
  | startFail (s : Sys) : s.state = SState.available → Step s (startShellFail s)
  | execBeginStep (s : Sys) (command : List Nat) (markerID : Nat) :
      s.state = SState.locked → Step s (execBegin s command markerID).1
  | execWriteFailStep (s : Sys) (command : List Nat) (markerID : Nat) :
      s.state = SState.locked → Step s (execWriteFail s command markerID)
  | readerStep (s : Sys) (chunk : List Char) :
      s.doneCh = none → Step s (readerChunk s chunk)
  | readerSignalErrStep (s : Sys) (e : ShellErr) :
      s.doneCh = none → Step s (readerSignalErr s e)
  | execRecvOkStep (s : Sys) :
      s.waiting = true → s.doneCh = some none → Step s (execRecvOk s).1
  | execRecvErrStep (s : Sys) (e : ShellErr) :
      s.waiting = true → s.doneCh = some (some e) → Step s (execRecvErr s e).1
  | execTimeoutStep (s : Sys) : s.waiting = true → Step s (execTimeout s).1
  | killStep (s : Sys) : Step s s
  | unlockStep (s : Sys) : Step s (unlockShell s)

/-- The state-transition graph of the specification: `available → locked`,
`locked → executing`, `executing → locked`, `{locked, executing} → available`
on unlock, `{locked, executing, available} → unrecoverable` on fatal I/O
failure, and `unrecoverable → available` via unlock. -/
def edge : SState → SState → Bool
  | SState.available, SState.locked => true
  | SState.locked, SState.executing => true
  | SState.executing, SState.locked => true
  | SState.locked, SState.available => true
  | SState.executing, SState.available => true
  | SState.locked, SState.unrecoverable => true
  | SState.executing, SState.unrecoverable => true
  | SState.available, SState.unrecoverable => true
  | SState.unrecoverable, SState.available => true
  | _, _ => false

/-- The specification's graph extended with the one transition the program
also makes: `unrecoverable → locked`, taken when a stale command-completion
signal (the reader's end-marker observation or Execute's nil receive) lands
after the shell was meanwhile unlocked and a later start attempt failed. -/
def edgeAmended : SState → SState → Bool
  | SState.unrecoverable, SState.locked => true
  | a, b => edge a b

/-! ### The session controller (cmd/shelld/main.go) -/

/-- Outcome of a key gate. -/
inductive GateResult where
  | unauthorized
  | notLocked
  | proceed
deriving DecidableEq, Repr

/-- `setKeyMiddleware` (main.go lines 127-152), the bind-or-match gate of
the lock endpoint: given the presented key and the bound key, the gate's
outcome and the bound key afterwards. -/
def setKeyGate (provided bound : String) : GateResult × String :=
  if provided = "" then (GateResult.unauthorized, bound)
  else
    let bound2 := if bound = "" then provided else bound
    if provided ≠ bound2 then (GateResult.unauthorized, bound2)
    else (GateResult.proceed, bound2)

/-- `verifyKeyMiddleware` (main.go lines 154-179), the match gate of every
other authenticated endpoint. -/
def verifyKeyGate (provided bound : String) : GateResult :=
  if provided = "" then GateResult.unauthorized
  else if bound = "" then GateResult.notLocked
  else if provided ≠ bound then GateResult.unauthorized
  else GateResult.proceed

/-- How `handleExecute` (main.go lines 215-228) decides the effective
deadline.  The header is `none` when absent, `some none` when present but
malformed (`time.ParseDuration` fails), `some (some d)` when it parses to
`d` nanoseconds. -/
inductive TimeoutDecision where
  | badRequest
  | useTimeout (t : Int)
deriving DecidableEq, Repr

def decideTimeout (defaultT maxT : Int) (header : Option (Option Int)) :
    TimeoutDecision :=
  match header with
  | none => TimeoutDecision.useTimeout defaultT
  | some none => TimeoutDecision.badRequest
  | some (some parsed) =>
      let clamped := if parsed > maxT then maxT else parsed
      TimeoutDecision.useTimeout (if clamped > 0 then clamped else defaultT)

/-- Whether `handleExecute` reaches `shell.Execute` at all for this header:
a malformed header returns the 400 before any command runs. -/
def executeRuns (defaultT maxT : Int) (header : Option (Option Int)) : Bool :=
  match decideTimeout defaultT maxT header with
  | TimeoutDecision.badRequest => false
  | TimeoutDecision.useTimeout _ => true

/-- The requests that can touch the bound key, as dispatched by main.go. -/
inductive KeyOp where
  | lockRequest (provided : String)
  | verifyRequest (provided : String)
  | unlockRecycle
  | unlockShutdown
deriving DecidableEq, Repr

/-- The bound key after one request: the lock gate binds a nonempty
presented key when none is bound (main.go lines 135-142); an unlock in
recycle mode clears it (main.go lines 280-282); nothing else writes it. -/
def keyAfter (bound : String) : KeyOp → String
  | KeyOp.lockRequest provided =>
      if provided = "" then bound
      else if bound = "" then provided else bound
  | KeyOp.verifyRequest _ => bound
  | KeyOp.unlockRecycle => ""
  | KeyOp.unlockShutdown => bound

/-- Observable actions of the lock handler. -/
inductive HookAct where
  | lockHook
  | startAttempt
deriving DecidableEq, Repr

/-- How the engine's Start call can come back to `handleLock`. -/
inductive StartOutcome where
  | started
  | failAlreadyLocked
  | failUnrecoverable
  | failOther
deriving DecidableEq, Repr

/-- The hook runner's `run` (lifecycle hooks): an empty configured command
is a no-op, otherwise the hook command is executed. -/
def runHook (hookCmd : String) (act : HookAct) : List HookAct :=
  if hookCmd = "" then [] else [act]

/-- `handleLock` (main.go lines 181-198): run the lock hook, then attempt
`shell.Start`;  the response status depends on the outcome, the action
sequence does not. -/
def handleLock (hookCmd : String) (outcome : StartOutcome) : List HookAct × Nat :=
  (runHook hookCmd HookAct.lockHook ++ [HookAct.startAttempt],
   match outcome with
   | StartOutcome.started => 200
   | StartOutcome.failAlreadyLocked => 409
   | StartOutcome.failUnrecoverable => 409
   | StartOutcome.failOther => 500)

/-! ### Claim theorems -/

/-- C2: output extraction returns the empty string when the buffer holds no
occurrence of `startMarker ++ "\r\n"`, or no occurrence of `endMarker` after
the first one; otherwise it returns the substring strictly between the first
occurrence of `startMarker ++ "\r\n"` and the next occurrence of `endMarker`,
split on newlines, a trailing carriage return stripped from each line, empty
lines dropped, rejoined with newlines. -/
theorem extractOutput_spec (buf sm em : List Char) :
    ((∀ i, ¬ occursAt (sm ++ crlf) buf i) → extractOutput buf sm em = [])
    ∧ (∀ i, occursAt (sm ++ crlf) buf i →
        (∀ j, j < i → ¬ occursAt (sm ++ crlf) buf j) →
        ((∀ k, ¬ occursAt em (buf.drop (i + (sm.length + 2))) k) →
            extractOutput buf sm em = [])
        ∧ (∀ k, occursAt em (buf.drop (i + (sm.length + 2))) k →
            (∀ m, m < k → ¬ occursAt em (buf.drop (i + (sm.length + 2))) m) →
            extractOutput buf sm em =
              List.intercalate ['\n']
                (((splitNl ((buf.drop (i + (sm.length + 2))).take k)).map trimCR).filter
                  (fun l => l ≠ [])))) := by
  have hlen : (sm ++ crlf).length = sm.length + 2 := by simp [crlf]
  refine ⟨?_, ?_⟩
  · intro h
    have hnone : strIndex (sm ++ crlf) buf = none := (strIndex_none_iff _ _).mpr h
    simp [extractOutput, hnone]
  · intro i hocc hmin
    have hsome : strIndex (sm ++ crlf) buf = some i :=
      strIndex_eq_some_of_first _ _ _ hocc hmin
    refine ⟨?_, ?_⟩
    · intro h
      have hnone : strIndex em (buf.drop (i + (sm.length + 2))) = none :=
        (strIndex_none_iff _ _).mpr h
      simp [extractOutput, hsome, hlen, hnone]
    · intro k hocck hmink
      have hsome2 : strIndex em (buf.drop (i + (sm.length + 2))) = some k :=
        strIndex_eq_some_of_first _ _ _ hocck hmink
      simp [extractOutput, hsome, hlen, hsome2]

/-- A concrete terminal buffer: the start-marker line, one output line
`ok`, then the end-marker line, as a pseudo-terminal emits them. -/
def sampleBuffer : List Char :=
  startMarkerOf 7 ++ crlf ++ "ok".data ++ crlf ++ endMarkerOf 7 ++ crlf

/-- Witness for C2 at a concrete buffer: the extractor returns `ok`. -/
theorem extractOutput_spec_witness :
    extractOutput sampleBuffer (startMarkerOf 7) (endMarkerOf 7) = "ok".data := by
  have h := ((extractOutput_spec sampleBuffer (startMarkerOf 7) (endMarkerOf 7)).2
      0 (by decide) (fun j hj => absurd hj (Nat.not_lt_zero j))).2
      4 (by decide) (by intro m hm; interval_cases m <;> decide)
  exact h.trans (by decide)

/-- C3: for every command accepted by Execute, the single write to the
pseudo-terminal master is exactly
`echo '<startMarker>';eval "$(echo '<b64(command)>'|base64 -d)";echo;echo '<endMarker>'`
followed by a newline, where the base64 is the standard encoding of the
command bytes and the generated start and end markers are distinct. -/
theorem execute_write_format (s : Sys) (command : List Nat) (markerID : Nat) :
    (execBegin s command markerID).2 =
      "echo '".data ++ startMarkerOf markerID ++ "';eval \"$(echo '".data
        ++ base64Encode command ++ "'|base64 -d)\";echo;echo '".data
        ++ endMarkerOf markerID ++ "'\n".data
    ∧ startMarkerOf markerID ≠ endMarkerOf markerID :=
  ⟨rfl, startMarker_ne_endMarker markerID⟩

/-- An engine state in the middle of a command: `executing`, fresh buffer,
markers of id 7, empty completion channel, the caller still waiting. -/
def sysExec : Sys :=
  { state := SState.executing
    buffer := []
    lastOutput := []
    currentCommand := []
    startM := startMarkerOf 7
    endM := endMarkerOf 7
    doneCh := none
    waiting := true
    hasProc := true }

/-- The chunk the reader receives for the witness runs. -/
def sampleChunk : List Char := sampleBuffer

/-- C1: when the per-call deadline elapses before the reader signals
completion, Execute returns the distinguished timeout error while the state
remains `executing` and the buffer keeps accumulating; when the reader later
observes `"\n" ++ endMarker ++ "\r\n"` in the buffer it moves the state to
`locked` and stores the extracted output in the last-output slot, which a
subsequent Output call returns. -/
theorem execute_timeout_then_reader (s : Sys) (chunk : List Char)
    (hst : s.state = SState.executing) (hw : s.waiting = true)
    (hm : containsSub (endMarkerOutput s) (s.buffer ++ chunk) = true) :
    (execTimeout s).2 = ExecResult.failed ShellErr.timeoutErr
    ∧ (execTimeout s).1.state = SState.executing
    ∧ (readerChunk (execTimeout s).1 chunk).buffer = s.buffer ++ chunk
    ∧ (readerChunk (execTimeout s).1 chunk).state = SState.locked
    ∧ (readerChunk (execTimeout s).1 chunk).lastOutput
        = extractOutput (s.buffer ++ chunk) s.startM s.endM
    ∧ outputOp (readerChunk (execTimeout s).1 chunk)
        = extractOutput (s.buffer ++ chunk) s.startM s.endM := by
  have hm2 : containsSub ('\n' :: (s.endM ++ crlf)) (s.buffer ++ chunk) = true := hm
  refine ⟨rfl, hst, ?_, ?_, ?_, ?_⟩ <;>
    simp [execTimeout, readerChunk, endMarkerOutput, outputOp, hm2]

/-- Witness for C1 at a concrete in-flight state and chunk. -/
theorem execute_timeout_then_reader_witness :
    (execTimeout sysExec).2 = ExecResult.failed ShellErr.timeoutErr
    ∧ (execTimeout sysExec).1.state = SState.executing
    ∧ (readerChunk (execTimeout sysExec).1 sampleChunk).buffer
        = sysExec.buffer ++ sampleChunk
    ∧ (readerChunk (execTimeout sysExec).1 sampleChunk).state = SState.locked
    ∧ (readerChunk (execTimeout sysExec).1 sampleChunk).lastOutput
        = extractOutput (sysExec.buffer ++ sampleChunk) sysExec.startM sysExec.endM
    ∧ outputOp (readerChunk (execTimeout sysExec).1 sampleChunk)
        = extractOutput (sysExec.buffer ++ sampleChunk) sysExec.startM sysExec.endM :=
  execute_timeout_then_reader sysExec sampleChunk rfl rfl (by decide)

/-- An engine caught by the completion race: the reader finished a command
and signalled success, but before Execute's receive ran the shell was
unlocked (recycle) and a later start attempt failed, leaving the state
`unrecoverable` while the channel still holds the success signal and the
Execute caller still waits. -/
def sysStaleRecv : Sys :=
  { state := SState.unrecoverable
    buffer := []
    lastOutput := "ok".data
    currentCommand := []
    startM := startMarkerOf 7
    endM := endMarkerOf 7
    doneCh := some none
    waiting := true
    hasProc := false }

/-- C4 counterexample: from the concrete racy state, Execute's nil receive
(shell.go lines 164-175, which set `locked` unconditionally) is a step of
the engine that changes the state from `unrecoverable` to `locked` — a pair
of consecutive states that is not an edge of the claimed graph. -/
theorem step_leaves_graph :
    Step sysStaleRecv (execRecvOk sysStaleRecv).1
    ∧ (execRecvOk sysStaleRecv).1.state ≠ sysStaleRecv.state
    ∧ edge sysStaleRecv.state (execRecvOk sysStaleRecv).1.state = false :=
  ⟨Step.execRecvOkStep sysStaleRecv rfl rfl, by decide, rfl⟩

/-- C4 as amended: every step of the engine that changes the state moves
along an edge of the directed graph `available → locked → executing →
locked`, with `{locked, executing} → available` on unlock,
`{locked, executing, available} → unrecoverable` on fatal I/O failure and
`unrecoverable → available` via unlock — extended with the transition
`unrecoverable → locked`, taken when a stale command-completion signal
lands after a racing unlock and a failed restart. -/
theorem step_respects_amended_graph (s s2 : Sys) (hstep : Step s s2)
    (hne : s2.state ≠ s.state) : edgeAmended s.state s2.state = true := by
  cases hstep with
  | startOk hs => simp [startShell, edgeAmended, edge, hs]
  | startFail hs => simp [startShellFail, edgeAmended, edge, hs]
  | execBeginStep command markerID hs => simp [execBegin, edgeAmended, edge, hs]
  | execWriteFailStep command markerID hs =>
      simp [execWriteFail, execBegin, edgeAmended, edge, hs]
  | readerStep chunk hd =>
      by_cases hc : containsSub ('\n' :: (s.endM ++ crlf)) (s.buffer ++ chunk) = true
      · have h2 : (readerChunk s chunk).state = SState.locked := by
          simp [readerChunk, endMarkerOutput, hc]
        rw [h2] at hne ⊢
        cases hs : s.state with
        | available => rfl
        | locked => exact absurd hs.symm hne
        | executing => rfl
        | unrecoverable => rfl
      · exact absurd (by simp [readerChunk, endMarkerOutput, hc]) hne
  | readerSignalErrStep e hd => exact absurd rfl hne
  | execRecvOkStep hw hd =>
      have h2 : (execRecvOk s).1.state = SState.locked := rfl
      rw [h2] at hne ⊢
      cases hs : s.state with
      | available => rfl
      | locked => exact absurd hs.symm hne
      | executing => rfl
      | unrecoverable => rfl
  | execRecvErrStep e hw hd =>
      have h2 : (execRecvErr s e).1.state = SState.unrecoverable := rfl
      rw [h2] at hne ⊢
      cases hs : s.state with
      | available => rfl
      | locked => rfl
      | executing => rfl
      | unrecoverable => exact absurd hs.symm hne
  | execTimeoutStep hw => exact absurd rfl hne
  | killStep => exact absurd rfl hne
  | unlockStep =>
      have h2 : (unlockShell s).state = SState.available := by
        unfold unlockShell; split <;> rfl
      rw [h2] at hne ⊢
      cases hs : s.state with
      | available => exact absurd hs.symm hne
      | locked => rfl
      | executing => rfl
      | unrecoverable => rfl

/-- An idle engine, no shell running. -/
def sysAvail : Sys :=
  { state := SState.available
    buffer := []
    lastOutput := []
    currentCommand := []
    startM := []
    endM := []
    doneCh := none
    waiting := false
    hasProc := false }

/-- Witness for C4 (amended): a successful Start takes the concrete idle
engine along the `available → locked` edge. -/
theorem step_respects_amended_graph_witness :
    edgeAmended sysAvail.state (startShell sysAvail).state = true :=
  step_respects_amended_graph sysAvail (startShell sysAvail)
    (Step.startOk sysAvail rfl) (by decide)

/-- An engine whose Execute call has already timed out: the command is
still in flight (`executing`), the reader still runs, nobody waits. -/
def sysTimedOut : Sys :=
  { state := SState.executing
    buffer := []
    lastOutput := []
    currentCommand := []
    startM := startMarkerOf 7
    endM := endMarkerOf 7
    doneCh := none
    waiting := false
    hasProc := true }

/-- C5 counterexample: a pseudo-terminal read failure while a command is in
flight but after the Execute deadline has expired leaves the state
`executing`, not `unrecoverable`, and surfaces no error — the reader only
queues the error on the completion channel, which nobody drains. -/
theorem readerFail_after_timeout_stays_executing :
    sysTimedOut.state = SState.executing
    ∧ (readerFail sysTimedOut ShellErr.eofErr).1.state = SState.executing
    ∧ (readerFail sysTimedOut ShellErr.eofErr).1.state ≠ SState.unrecoverable
    ∧ (readerFail sysTimedOut ShellErr.eofErr).2 = none := by
  refine ⟨rfl, rfl, ?_, rfl⟩
  intro h
  exact SState.noConfusion h

/-- C5 as amended: when the reader's read fails while a command is in
flight, the error is signalled on the completion channel; if the Execute
call is still waiting, the state transitions to `unrecoverable` and the
error is surfaced; if the deadline has already expired, the state remains
`executing` and the error is only queued. -/
theorem readerFail_spec (s : Sys) (e : ShellErr)
    (hs : s.state = SState.executing) :
    (s.waiting = true →
        (readerFail s e).1.state = SState.unrecoverable
        ∧ (readerFail s e).2 = some e)
    ∧ (s.waiting = false →
        (readerFail s e).1.state = SState.executing
        ∧ (readerFail s e).1.doneCh = some (some e)
        ∧ (readerFail s e).2 = none) := by
  constructor
  · intro hw
    simp [readerFail, execRecvErr, readerSignalErr, hw]
  · intro hw
    simp [readerFail, readerSignalErr, hw, hs]

/-- Witness for C5 (amended): at a concrete waiting state the failure is
surfaced and the state becomes `unrecoverable`. -/
theorem readerFail_spec_witness :
    (readerFail sysExec ShellErr.eofErr).1.state = SState.unrecoverable
    ∧ (readerFail sysExec ShellErr.eofErr).2 = some ShellErr.eofErr :=
  (readerFail_spec sysExec ShellErr.eofErr rfl).1 rfl

/-- C6: a malformed `X-Command-Timeout` header is a 400 and no command
runs; an override greater than the configured maximum is clamped to that
maximum; a positive override (after clamping) is the effective deadline;
a non-positive override falls back to the configured default. -/
theorem decideTimeout_spec (defaultT maxT p : Int) :
    decideTimeout defaultT maxT (some none) = TimeoutDecision.badRequest
    ∧ executeRuns defaultT maxT (some none) = false
    ∧ (p > maxT → decideTimeout defaultT maxT (some (some p)) =
        TimeoutDecision.useTimeout (if maxT > 0 then maxT else defaultT))
    ∧ (p ≤ maxT → p > 0 → decideTimeout defaultT maxT (some (some p)) =
        TimeoutDecision.useTimeout p)
    ∧ (p ≤ maxT → p ≤ 0 → decideTimeout defaultT maxT (some (some p)) =
        TimeoutDecision.useTimeout defaultT)
    ∧ decideTimeout defaultT maxT none = TimeoutDecision.useTimeout defaultT := by
  refine ⟨rfl, rfl, ?_, ?_, ?_, rfl⟩
  · intro hgt
    simp [decideTimeout, hgt]
  · intro hle hpos
    simp [decideTimeout, not_lt.mpr hle, hpos]
  · intro hle hnonpos
    simp [decideTimeout, not_lt.mpr hle, not_lt.mpr hnonpos]

/-- Witness for C6 at concrete durations: an over-limit override clamps to
the maximum, an in-range one is used, a non-positive one falls back. -/
theorem decideTimeout_spec_witness :
    decideTimeout 300 1800 (some none) = TimeoutDecision.badRequest
    ∧ executeRuns 300 1800 (some none) = false
    ∧ decideTimeout 300 1800 (some (some 3600)) = TimeoutDecision.useTimeout 1800
    ∧ decideTimeout 300 1800 (some (some 10)) = TimeoutDecision.useTimeout 10
    ∧ decideTimeout 300 1800 (some (some (-5))) = TimeoutDecision.useTimeout 300 := by
  have h := decideTimeout_spec 300 1800 3600
  have h10 := decideTimeout_spec 300 1800 10
  have hneg := decideTimeout_spec 300 1800 (-5)
  refine ⟨h.1, h.2.1, ?_, ?_, ?_⟩
  · have := h.2.2.1 (by norm_num)
    simpa using this
  · exact h10.2.2.2.1 (by norm_num) (by norm_num)
  · exact hneg.2.2.2.2.1 (by norm_num) (by norm_num)

/-- C7: on the lock endpoint an empty presented key is a 401; an empty
bound key is bound to the presented key; a mismatch is a 401.  On every
other authenticated endpoint an empty presented key is a 401, an empty
bound key a 409, a mismatch a 401, and only a matching key proceeds. -/
theorem keyGates_spec (provided bound : String) :
    ((setKeyGate "" bound).1 = GateResult.unauthorized)
    ∧ (provided ≠ "" → bound = "" →
        setKeyGate provided bound = (GateResult.proceed, provided))
    ∧ (provided ≠ "" → bound ≠ "" → provided ≠ bound →
        (setKeyGate provided bound).1 = GateResult.unauthorized)
    ∧ (provided ≠ "" → bound ≠ "" → provided = bound →
        setKeyGate provided bound = (GateResult.proceed, bound))
    ∧ (verifyKeyGate "" bound = GateResult.unauthorized)
    ∧ (provided ≠ "" → verifyKeyGate provided "" = GateResult.notLocked)
    ∧ (provided ≠ "" → bound ≠ "" → provided ≠ bound →
        verifyKeyGate provided bound = GateResult.unauthorized)
    ∧ (verifyKeyGate provided bound = GateResult.proceed →
        provided = bound ∧ bound ≠ "") := by
  refine ⟨by simp [setKeyGate], ?_, ?_, ?_, by simp [verifyKeyGate], ?_, ?_, ?_⟩
  · intro hp hb
    simp [setKeyGate, hp, hb]
  · intro hp hb hne
    simp [setKeyGate, hp, hb, hne]
  · intro hp hb heq
    simp [setKeyGate, hp, hb, heq]
  · intro hp
    simp [verifyKeyGate, hp]
  · intro hp hb hne
    simp [verifyKeyGate, hp, hb, hne]
  · intro h
    by_cases hp : provided = ""
    · simp [verifyKeyGate, hp] at h
    · by_cases hb : bound = ""
      · simp [verifyKeyGate, hp, hb] at h
      · by_cases hne : provided = bound
        · exact ⟨hne, hb⟩
        · simp [verifyKeyGate, hp, hb, hne] at h

/-- Witness for C7 at concrete keys. -/
theorem keyGates_spec_witness :
    setKeyGate "alpha" "" = (GateResult.proceed, "alpha")
    ∧ (setKeyGate "beta" "alpha").1 = GateResult.unauthorized
    ∧ verifyKeyGate "alpha" "" = GateResult.notLocked
    ∧ verifyKeyGate "beta" "alpha" = GateResult.unauthorized := by
  have ha := keyGates_spec "alpha" ""
  have hb := keyGates_spec "beta" "alpha"
  exact ⟨ha.2.1 (by decide) rfl,
         hb.2.2.1 (by decide) (by decide) (by decide),
         ha.2.2.2.2.2.1 (by decide),
         hb.2.2.2.2.2.2.1 (by decide) (by decide) (by decide)⟩

/-- C8: a non-empty bound key is never replaced by a different non-empty
key, and it becomes empty only through an unlock in recycle mode; over any
sequence of requests without a recycle-mode unlock it is unchanged. -/
theorem keyStickiness (bound : String) (hb : bound ≠ "") :
    (∀ op, keyAfter bound op = bound
        ∨ (keyAfter bound op = "" ∧ op = KeyOp.unlockRecycle))
    ∧ (∀ ops : List KeyOp, KeyOp.unlockRecycle ∉ ops →
        ops.foldl keyAfter bound = bound) := by
  constructor
  · intro op
    cases op with
    | lockRequest provided =>
        left
        by_cases hp : provided = "" <;> simp [keyAfter, hp, hb]
    | verifyRequest provided => left; rfl
    | unlockRecycle => right; exact ⟨rfl, rfl⟩
    | unlockShutdown => left; rfl
  · intro ops
    induction ops with
    | nil => intro _; rfl
    | cons op rest ih =>
        intro hmem
        have hop : op ≠ KeyOp.unlockRecycle := fun h => hmem (h ▸ List.mem_cons_self op rest)
        have hkeep : keyAfter bound op = bound := by
          cases op with
          | lockRequest provided =>
              by_cases hp : provided = "" <;> simp [keyAfter, hp, hb]
          | verifyRequest provided => rfl
          | unlockRecycle => exact absurd rfl hop
          | unlockShutdown => rfl
        simp only [List.foldl_cons, hkeep]
        exact ih (fun h => hmem (List.mem_cons_of_mem op h))

/-- Witness for C8: a concrete bound key survives a concrete request
sequence without a recycle unlock. -/
theorem keyStickiness_witness :
    (keyAfter "alpha" (KeyOp.lockRequest "beta") = "alpha"
        ∨ (keyAfter "alpha" (KeyOp.lockRequest "beta") = ""
            ∧ KeyOp.lockRequest "beta" = KeyOp.unlockRecycle))
    ∧ [KeyOp.lockRequest "beta", KeyOp.verifyRequest "alpha",
        KeyOp.unlockShutdown].foldl keyAfter "alpha" = "alpha" := by
  have h := keyStickiness "alpha" (by decide)
  exact ⟨h.1 (KeyOp.lockRequest "beta"), h.2 _ (by decide)⟩

/-- C9: Unlock returns the state to `available` and resets the output
buffer (when a shell process was held) but leaves the last-output slot
untouched: a subsequent Output, even after a fresh Start, still returns the
previous session's output, and only the next Execute resets the slot. -/
theorem unlock_frames_lastOutput (s : Sys) (command : List Nat) (markerID : Nat) :
    outputOp (unlockShell s) = outputOp s
    ∧ (unlockShell s).state = SState.available
    ∧ (unlockShell { s with hasProc := true }).buffer = []
    ∧ outputOp (startShell (unlockShell s)) = outputOp s
    ∧ (execBegin s command markerID).1.lastOutput = [] := by
  refine ⟨?_, ?_, ?_, ?_, rfl⟩ <;>
    simp [outputOp, unlockShell, startShell] <;> split <;> rfl

/-- C10: the lock handler runs the configured lock hook before attempting
to start the engine, for every Start outcome — also when the request is
then rejected with 409 or 500. -/
theorem lockHook_always_runs (hookCmd : String) (outcome : StartOutcome)
    (hc : hookCmd ≠ "") :
    (handleLock hookCmd outcome).1 = [HookAct.lockHook, HookAct.startAttempt]
    ∧ ((handleLock hookCmd outcome).2 = 409 ∨ (handleLock hookCmd outcome).2 = 500 →
        (handleLock hookCmd outcome).1.head? = some HookAct.lockHook) := by
  have hacts : (handleLock hookCmd outcome).1
      = [HookAct.lockHook, HookAct.startAttempt] := by
    simp [handleLock, runHook, hc]
  exact ⟨hacts, fun _ => by rw [hacts]; rfl⟩

/-- Witness for C10: with a configured hook, a Start rejected because the
shell is already locked (409) still ran the hook first. -/
theorem lockHook_always_runs_witness :
    (handleLock "notify" StartOutcome.failAlreadyLocked).1
      = [HookAct.lockHook, HookAct.startAttempt]
    ∧ ((handleLock "notify" StartOutcome.failAlreadyLocked).2 = 409
        ∨ (handleLock "notify" StartOutcome.failAlreadyLocked).2 = 500 →
        (handleLock "notify" StartOutcome.failAlreadyLocked).1.head?
          = some HookAct.lockHook) :=
  lockHook_always_runs "notify" StartOutcome.failAlreadyLocked (by decide)

end Shelld
